import Mathlib

/-!
Verification of the MetaScrub scrub-orchestration core.

This file is a shallow embedding, in Lean 4, of the parts of the
`scrubmeta` Python package that the specification talks about:

* `scrubmeta/utils/result.py`   — result and error-category value types;
* `scrubmeta/utils/file_utils.py` — file discovery and output-path
  resolution (collision handling);
* `scrubmeta/core.py`           — the `CancelToken`, the dispatch over the
  registered scrubbers (`CoreScrubber.scrub_file`) and the orchestration
  loop (`CoreScrubber.scrub_path`);
* `scrubmeta/scrubbers/media_scrubber.py` — the control/exception flow of
  `MediaScrubber.scrub`;
* `scrubmeta/cli.py`            — the exit-code logic of `scrub_command`.

Filesystem-dependent behaviour is made explicit: the set of existing
files is a `Finset`, directory contents are a list of entries, faults of
primitive operations are an explicit environment, and mutations of the
filesystem are recorded in an effect trace.
-/

namespace MetaScrub

/-! ### Result model (`scrubmeta/utils/result.py`) -/

/-- The `ResultType` enum: SUCCESS, SKIP, ERROR. -/
inductive ResultType where
  | success
  | skip
  | error
deriving DecidableEq, Repr

/-- The `ErrorCategory` enum from `result.py`. -/
inductive ErrorCategory where
  | input_error
  | permission_error
  | dependency_error
  | processing_error
  | output_error
  | cancelled
deriving DecidableEq, Repr

/-- A filesystem path, split the way the Python code manipulates it:
directory components, the file stem and the suffix (extension including
the leading dot, possibly empty).  `pathlib.Path` exposes exactly these
pieces (`path.parent`, `path.stem`, `path.suffix`). -/
structure FilePath0 where
  parent : List String
  stem : String
  suffix : String
deriving DecidableEq, Repr

/-- The `path.name` accessor — stem followed by suffix. -/
def FilePath0.name (p : FilePath0) : String := p.stem ++ p.suffix

/-- The `ScrubResult` dataclass from `result.py` (field for field). -/
structure ScrubResult where
  result_type : ResultType
  input_path : FilePath0
  output_path : Option FilePath0 := none
  metadata_removed : Option String := none
  reason : Option String := none
  error : Option String := none
  error_category : Option ErrorCategory := none
  fix_hint : Option String := none
deriving DecidableEq, Repr

/-! ### CancelToken (`scrubmeta/core.py`, lines 26–39) -/

/-- The `CancelToken` class: a single mutable boolean `_cancelled`, initially false. -/
structure CancelToken where
  _cancelled : Bool
deriving DecidableEq, Repr

/-- Constructor `CancelToken.__init__`: the flag starts false. -/
def CancelToken.init : CancelToken := ⟨false⟩

/-- Method `CancelToken.cancel`: sets `_cancelled = True`. -/
def CancelToken.cancel (_t : CancelToken) : CancelToken := ⟨true⟩

/-- The `cancelled` property: reads the flag. -/
def CancelToken.cancelled (t : CancelToken) : Bool := t._cancelled

/-- The only mutating operation the class exposes is `cancel`. -/
inductive TokenOp where
  | cancelOp
deriving DecidableEq, Repr

/-- Apply one operation to the token state. -/
def CancelToken.applyOp (t : CancelToken) : TokenOp → CancelToken
  | .cancelOp => t.cancel

/-- Run a sequence of operations on the token state. -/
def CancelToken.runOps (t : CancelToken) (ops : List TokenOp) : CancelToken :=
  ops.foldl CancelToken.applyOp t

/-! ### Supported extensions (`scrubmeta/utils/file_utils.py`, lines 10–21) -/

namespace FileDiscovery

/-- The set `FileDiscovery.SUPPORTED_EXTENSIONS` (a Python set literal; modelled as
the list of its elements, membership is what the code uses it for). -/
def SUPPORTED_EXTENSIONS : List String :=
  [ ".jpg", ".jpeg", ".png", ".webp",
    ".pdf",
    ".docx", ".xlsx", ".pptx",
    ".mp4", ".mov", ".mkv", ".avi", ".m4v", ".webm", ".mpg", ".mpeg",
    ".mp3", ".wav", ".flac", ".m4a", ".aac", ".ogg", ".opus" ]

end FileDiscovery

/-- Python `str.lower` for the ASCII strings the code compares
(extensions): lower-case every character. -/
def strLower (s : String) : String := ⟨s.data.map Char.toLower⟩

/-- Index of the last occurrence of a character in a list (Python
`str.rfind` restricted to what `pathlib` needs), or `none`. -/
def lastIndexOf (c : Char) : List Char → Option Nat
  | [] => none
  | x :: xs =>
    match lastIndexOf c xs with
    | some i => some (i + 1)
    | none => if x = c then some 0 else none

/-- The value of `pathlib.PurePath.suffix` computed from a file name: the substring
from the last dot on, provided that dot is neither the first nor the
last character of the name; otherwise the empty string. -/
def suffixOfName (name : String) : String :=
  match lastIndexOf '.' name.toList with
  | none => ""
  | some i =>
    if 0 < i ∧ i < name.toList.length - 1 then ⟨name.toList.drop i⟩ else ""

/-- Predicate `FileDiscovery.is_supported`: the lower-cased suffix is in the
allow-list (`file_path.suffix.lower() in cls.SUPPORTED_EXTENSIONS`). -/
def FileDiscovery.is_supported_name (name : String) : Bool :=
  decide (strLower (suffixOfName name) ∈ FileDiscovery.SUPPORTED_EXTENSIONS)

/-! ### Scrubber registry and dispatch (`scrubmeta/core.py`, lines 56–77;
`scrubmeta/scrubbers/*.py` `SUPPORTED_FORMATS` and `can_handle`) -/

/-- The four registered scrubber classes, in registration order. -/
inductive Scrubber where
  | image
  | pdf
  | ooxml
  | media
deriving DecidableEq, Repr

instance : Fintype Scrubber :=
  ⟨⟨{.image, .pdf, .ooxml, .media}, by decide⟩, fun s => by cases s <;> decide⟩

/-- The `SUPPORTED_FORMATS` of each scrubber class, verbatim from the four
scrubber modules. -/
def Scrubber.SUPPORTED_FORMATS : Scrubber → List String
  | .image => [".jpg", ".jpeg", ".png", ".webp"]
  | .pdf => [".pdf"]
  | .ooxml => [".docx", ".xlsx", ".pptx"]
  | .media =>
    [ ".mp4", ".mov", ".mkv", ".avi", ".m4v", ".webm", ".mpg", ".mpeg",
      ".mp3", ".wav", ".flac", ".m4a", ".aac", ".ogg", ".opus" ]

/-- The `can_handle` predicate of each scrubber class:
`file_path.suffix.lower() in cls.SUPPORTED_FORMATS`. -/
def Scrubber.can_handle (s : Scrubber) (file_path : FilePath0) : Bool :=
  decide (strLower file_path.suffix ∈ s.SUPPORTED_FORMATS)

namespace CoreScrubber

/-- Constructor `CoreScrubber.__init__`: `self.scrubbers`, in registration order. -/
def scrubbers : List Scrubber := [.image, .pdf, .ooxml, .media]

/-- Method `CoreScrubber.scrub_file`: the first scrubber whose `can_handle`
accepts the file is run on it (`impl` stands for the per-class `scrub`
methods, with `ffmpeg_cmd` already folded into the media entry); if none
matches, a SKIP result naming the extension is returned. -/
def scrub_file (impl : Scrubber → FilePath0 → FilePath0 → ScrubResult)
    (input_path output_path : FilePath0) : ScrubResult :=
  match scrubbers.find? (fun s => s.can_handle input_path) with
  | some s => impl s input_path output_path
  | none =>
    { result_type := .skip
      input_path := input_path
      reason := some ("Unsupported file type: " ++ input_path.suffix) }

end CoreScrubber

/-! ### File discovery on a directory
(`scrubmeta/utils/file_utils.py`, `FileDiscovery.discover_files`) -/

/-- One entry of a directory subtree: its path relative to the scanned
directory (non-empty component list) and whether it is a regular file.
`input_path.glob("*")` enumerates the entries with one component,
`input_path.glob("**/*")` enumerates all of them. -/
structure DirEntry where
  relPath : List String
  is_file : Bool
deriving DecidableEq, Repr

/-- The entry's path rendered as a string, used as the sort key
(`sorted` on `pathlib` paths compares their string forms; all discovered
paths share the scanned directory as a prefix, so comparing the relative
strings gives the same order). -/
def DirEntry.pathStr (e : DirEntry) : String :=
  String.intercalate "/" e.relPath

/-- The entry's file name — its last path component. -/
def DirEntry.name (e : DirEntry) : String := e.relPath.getLastD ""

/-- Lexicographic comparison of character lists — the order `sorted` uses
on path strings (Python compares strings code point by code point). -/
def charListLe : List Char → List Char → Bool
  | [], _ => true
  | _ :: _, [] => false
  | a :: as, b :: bs => if a < b then true else if a = b then charListLe as bs else false

/-- The path order `sorted(files)` uses: lexicographic on the rendered
path string. -/
def DirEntry.pathLe (a b : DirEntry) : Prop :=
  charListLe a.pathStr.data b.pathStr.data = true

instance : DecidableRel DirEntry.pathLe := fun a b => by
  unfold DirEntry.pathLe
  infer_instance

namespace FileDiscovery

/-- Method `FileDiscovery.discover_files` on a directory whose subtree is
`entries`: glob with `"**/*"` (recursive) or `"*"` (immediate children
only), keep regular files whose type is supported, return them sorted. -/
def discover_files (entries : List DirEntry) (recursive : Bool) : List DirEntry :=
  let globbed := if recursive then entries else entries.filter (fun e => e.relPath.length = 1)
  let files := globbed.filter (fun e => e.is_file && is_supported_name e.name)
  List.insertionSort DirEntry.pathLe files

end FileDiscovery

/-! ### Output path resolution (`scrubmeta/utils/file_utils.py`,
`OutputManager`) -/

/-- Effects on the filesystem (and the provider boundary) that the
orchestration code can perform, recorded as a trace. -/
inductive Effect where
  /-- A `mkdir(parents=True, exist_ok=True)` call on a directory. -/
  | mkdirp (dir : List String)
  /-- A capability provider's `scrub` was invoked on this input file. -/
  | provider (file : FilePath0)
  /-- A file was written (created or replaced) at this path. -/
  | write (p : FilePath0)
deriving DecidableEq, Repr

/-- Configuration state of `OutputManager.__init__` (its constructor also
creates the output root; that effect is emitted by the orchestrator model
at the point the manager is constructed). -/
structure OutputManager where
  output_dir : List String
  overwrite : Bool
  keep_structure : Bool
deriving DecidableEq, Repr

/-- The collision-candidate name used by `OutputManager._get_unique_path`:
`f"{stem}_clean_{counter}{suffix}"` next to the original path. -/
def mkCleanPath (p : FilePath0) (counter : Nat) : FilePath0 :=
  ⟨p.parent, p.stem ++ "_clean_" ++ toString counter, p.suffix⟩

/-- The `while True` loop of `_get_unique_path`: try counters
`counter, counter+1, …` until the candidate does not exist.  The Python
loop is unbounded; the model carries fuel, and `fs.card + 1` fuel is
proved sufficient below (`uniqueLoop` never actually exhausts it). -/
def uniqueLoop (fs : Finset FilePath0) (p : FilePath0) : Nat → Nat → FilePath0
  | counter, 0 => mkCleanPath p counter
  | counter, fuel + 1 =>
    let new_path := mkCleanPath p counter
    if new_path ∈ fs then uniqueLoop fs p (counter + 1) fuel else new_path

/-- Method `OutputManager._get_unique_path` over the set `fs` of existing files:
return the path itself if it does not exist, else the first free
`_clean_{n}` variant, counting from 1. -/
def OutputManager._get_unique_path (fs : Finset FilePath0) (path : FilePath0) : FilePath0 :=
  if path ∉ fs then path
  else uniqueLoop fs path (1 : Nat) (fs.card + 1)

/-- The pre-collision output path of `OutputManager.get_output_path`,
together with the directory-creation effects it performs: with
`keep_structure` the input's path relative to the base input directory is
re-rooted under the output directory and the parent directories are
created; otherwise the output is flat. -/
def OutputManager.plain_output_path (m : OutputManager) (input_path : FilePath0)
    (base_input_dir : List String) : FilePath0 × List Effect :=
  if m.keep_structure then
    let relative_parent := input_path.parent.drop base_input_dir.length
    let output_path : FilePath0 :=
      ⟨m.output_dir ++ relative_parent, input_path.stem, input_path.suffix⟩
    (output_path, [Effect.mkdirp output_path.parent])
  else
    (⟨m.output_dir, input_path.stem, input_path.suffix⟩, [])

/-- Method `OutputManager.get_output_path` over the set `fs` of existing files:
compute the structural path, then apply the collision policy (when not
overwriting and the path exists, divert to `_get_unique_path`). -/
def OutputManager.get_output_path (m : OutputManager) (fs : Finset FilePath0)
    (input_path : FilePath0) (base_input_dir : List String) : FilePath0 × List Effect :=
  let (output_path, effs) := m.plain_output_path input_path base_input_dir
  if !m.overwrite && output_path ∈ fs then
    (OutputManager._get_unique_path fs output_path, effs)
  else
    (output_path, effs)

/-! ### The orchestration loop (`scrubmeta/core.py`,
`CoreScrubber.scrub_path`) -/

/-- The `ScrubSummary` dataclass from `core.py`. -/
structure ScrubSummary where
  total : Nat
  success : Nat
  skipped : Nat
  errors : Nat
  cancelled : Bool
deriving DecidableEq, Repr

/-- How `FileDiscovery.discover_files` can fail when invoked by the
orchestrator: a `PermissionError`, or any other exception. -/
inductive ScanExn where
  | permission
  | other
deriving DecidableEq, Repr

/-- The parts of the world `scrub_path` observes: the input path, the
results of its existence and readability checks, the outcome of
discovery, and the set of files existing on disk (used by output-path
collision checks). -/
structure RunEnv where
  input_path : FilePath0
  input_exists : Bool
  input_readable : Bool
  discovery : Except ScanExn (List FilePath0)
  fs : Finset FilePath0

/-- The option flags `scrub_path` receives, together with the output
directory and the base input directory it computes
(`input_path if input_path.is_dir() else input_path.parent`). -/
structure RunCfg where
  output_dir : List String
  base_input_dir : List String
  keep_structure : Bool
  overwrite : Bool
  dry_run : Bool
deriving DecidableEq, Repr

/-- Mutable state threaded through the processing loop: the running
counters, the set of files on disk, and the trace of effects so far. -/
structure RunState where
  success : Nat
  skipped : Nat
  errors : Nat
  fs : Finset FilePath0
  trace : List Effect

/-- What `scrub_path` returns: the recorded outcomes and the summary —
plus, in the model, the trace of effects the run performed. -/
structure RunOutput where
  results : List ScrubResult
  summary : ScrubSummary
  trace : List Effect
deriving Repr

/-- The files created by a list of effects (a `write` creates its path). -/
def writesOf (effs : List Effect) : Finset FilePath0 :=
  effs.foldr (fun e acc => match e with | .write p => insert p acc | _ => acc) ∅

/-- The counter updates at the end of each loop iteration:
`success += 1` / `skipped += 1` / `errors += 1` by result type. -/
def tally (r : ScrubResult) (st : RunState) : RunState :=
  match r.result_type with
  | .success => { st with success := st.success + 1 }
  | .skip => { st with skipped := st.skipped + 1 }
  | .error => { st with errors := st.errors + 1 }

/-- One iteration body of the `for index, file_path in enumerate(files)`
loop, after the cancellation check: resolve the output path (this may
create directories), then either synthesize the dry-run SKIP result or
dispatch to `scrub_file` (`scrub` stands for that dispatch; invoking it
is recorded as a `provider` effect followed by its own effects). -/
def processOne (cfg : RunCfg) (scrub : FilePath0 → FilePath0 → ScrubResult × List Effect)
    (st : RunState) (file_path : FilePath0) : ScrubResult × RunState :=
  let m : OutputManager := ⟨cfg.output_dir, cfg.overwrite, cfg.keep_structure⟩
  let resolved := m.get_output_path st.fs file_path cfg.base_input_dir
  let output_path := resolved.1
  let effs1 := resolved.2
  let step : ScrubResult × List Effect :=
    if cfg.dry_run then
      ({ result_type := .skip
         input_path := file_path
         output_path := some output_path
         reason := some "dry-run (no changes written)" }, ([] : List Effect))
    else
      ((scrub file_path output_path).1,
        Effect.provider file_path :: (scrub file_path output_path).2)
  let r := step.1
  let effs2 := step.2
  let st1 : RunState :=
    { st with
        fs := st.fs ∪ writesOf effs2
        trace := st.trace ++ effs1 ++ effs2 }
  (r, tally r st1)

/-- The processing loop. `read i` is the value the `cancel_token.cancelled`
property reads at the top of iteration `i` (the token is mutated
externally, e.g. from a callback, so the model takes the read sequence as
an oracle).  Returns the recorded results, the final state and the
`cancelled` flag (`true` exactly when the loop broke early). -/
def processFiles (cfg : RunCfg) (scrub : FilePath0 → FilePath0 → ScrubResult × List Effect)
    (read : Nat → Bool) : List FilePath0 → Nat → RunState → List ScrubResult × RunState × Bool
  | [], _, st => ([], st, false)
  | file_path :: rest, i, st =>
    if read i then ([], st, true)
    else
      let (r, st1) := processOne cfg scrub st file_path
      let (rs, st2, c) := processFiles cfg scrub read rest (i + 1) st1
      (r :: rs, st2, c)

/-- Method `CoreScrubber.scrub_path`: validate that the input exists and is
readable, scan, then run the loop; on cancellation the remaining
candidates are added to `skipped`.  Each validation/scan failure
short-circuits with a single error result and a zeroed summary.
Constructing the `OutputManager` creates the output root directory, which
is the first effect of a run that reaches the loop. -/
def scrub_path (env : RunEnv) (cfg : RunCfg)
    (scrub : FilePath0 → FilePath0 → ScrubResult × List Effect)
    (read : Nat → Bool) : RunOutput :=
  if !env.input_exists then
    { results :=
        [{ result_type := .error
           input_path := env.input_path
           error := some "Input path does not exist"
           error_category := some .input_error
           fix_hint := some "Verify the path is correct" }]
      summary := ⟨0, 0, 0, 1, false⟩
      trace := [] }
  else if !env.input_readable then
    { results :=
        [{ result_type := .error
           input_path := env.input_path
           error := some "Cannot read input path (permission denied)"
           error_category := some .permission_error
           fix_hint := some "Check permissions or run with appropriate privileges" }]
      summary := ⟨0, 0, 0, 1, false⟩
      trace := [] }
  else
    match env.discovery with
    | .error .permission =>
      { results :=
          [{ result_type := .error
             input_path := env.input_path
             error := some "Permission denied while scanning directory"
             error_category := some .permission_error
             fix_hint := some "Check directory permissions or run with appropriate privileges" }]
        summary := ⟨0, 0, 0, 1, false⟩
        trace := [] }
    | .error .other =>
      { results :=
          [{ result_type := .error
             input_path := env.input_path
             error := some "Failed to scan directory"
             error_category := some .input_error
             fix_hint := some "Verify the path is valid and accessible" }]
        summary := ⟨0, 0, 0, 1, false⟩
        trace := [] }
    | .ok files =>
      let total := files.length
      let st0 : RunState := ⟨0, 0, 0, env.fs, [Effect.mkdirp cfg.output_dir]⟩
      let (results, st, cancelled) := processFiles cfg scrub read files 0 st0
      let skipped :=
        if cancelled && decide (results.length < total) then
          st.skipped + (total - results.length)
        else st.skipped
      { results := results
        summary := ⟨total, st.success, skipped, st.errors, cancelled⟩
        trace := st.trace }

/-! ### MediaScrubber.scrub control and exception flow
(`scrubmeta/scrubbers/media_scrubber.py`, lines 47–205) -/

/-- The Python exception classes the handlers in `MediaScrubber.scrub`
distinguish. -/
inductive PyExn where
  /-- An `OSError` with this `errno`. -/
  | osError (errno : Nat)
  /-- A `subprocess.TimeoutExpired` exception. -/
  | timeoutExpired
  /-- Any other exception. -/
  | otherExn (tag : String)
deriving DecidableEq, Repr

/-- The outcomes of the primitive operations `MediaScrubber.scrub`
performs, in program order: the input checks, `ffmpeg` availability, the
`output_path.parent.mkdir` call, the writability check, the temp-file
creation, the `subprocess.run` invocation (return code and stderr when it
returns) and the final `shutil.move`. -/
structure MediaEnv where
  input_exists : Bool
  input_readable : Bool
  ffmpeg_available : Bool
  mkdir_fault : Option PyExn
  output_dir_writable : Bool
  tmp_create_fault : Option PyExn
  run_result : Except PyExn (Nat × String)
  move_fault : Option PyExn
deriving Repr

/-- True when `pattern` occurs as a substring of `s` (Python `in`). -/
def strContains (s pattern : String) : Bool :=
  decide (pattern.toList <:+: s.toList)

/-- The stderr classification of a non-zero `ffmpeg` return code
(`media_scrubber.py`, lines 124–139). -/
def classifyFfmpegStderr (stderr : String) : ErrorCategory × String :=
  if strContains stderr "No such file or directory" || strContains stderr "does not exist" then
    (.input_error, "Verify input file exists and path is correct")
  else if strContains stderr "Permission denied" then
    (.permission_error, "Check file permissions or run with appropriate privileges")
  else if strContains stderr "Invalid data" || strContains stderr "moov atom not found" then
    (.input_error, "File may be corrupted or not a valid media file")
  else if strContains stderr "Codec" || strContains stderr "not supported" then
    (.processing_error, "This media format may not be fully supported by ffmpeg")
  else
    (.processing_error, "Check ffmpeg output for details")

namespace MediaScrubber

/-- The result built by the OSError handlers (errno 28 is ENOSPC and 30
is EROFS, the two cases the code names). -/
def osErrorResult (input_path : FilePath0) (errno : Nat) : ScrubResult :=
  let msg :=
    if errno = 28 then "No space left on device"
    else if errno = 30 then "Output filesystem is read-only"
    else "I/O error"
  let hint :=
    if errno = 28 then "Free up disk space on the output drive"
    else if errno = 30 then "Choose a writable output location"
    else "Check filesystem and disk health"
  { result_type := .error
    input_path := input_path
    error := some msg
    error_category := some .output_error
    fix_hint := some hint }

/-- The result built by the outer `except Exception` catch-all handler. -/
def catchAllResult (input_path : FilePath0) : ScrubResult :=
  { result_type := .error
    input_path := input_path
    error := some "Unexpected error"
    error_category := some .processing_error
    fix_hint := some "Report this error if it persists" }

/-- Method `MediaScrubber.scrub`, with its exception flow made explicit.  The
return value is `Except.ok r` when the Python function returns the
`ScrubResult` `r`, and `Except.error e` when the exception `e` escapes
the function uncaught.  Control flow, line by line:
input-existence and readability checks; the ffmpeg availability SKIP;
`output_path.parent.mkdir` — which sits before the `try` block, so a
fault there propagates; the writability check; temp-file creation (inside
the outer `try`, so a fault is caught by the outer `except Exception`);
`subprocess.run` with its `TimeoutExpired` and `OSError` handlers, other
exceptions falling through to the outer catch-all; the return-code
check with stderr classification; and `shutil.move` with the same
`OSError` handling. -/
def scrub (env : MediaEnv) (input_path _output_path : FilePath0)
    (ffmpeg_cmd : String) : Except PyExn ScrubResult :=
  if !env.input_exists then
    .ok { result_type := .error
          input_path := input_path
          error := some "File not found"
          error_category := some .input_error
          fix_hint := some "Verify the file path is correct" }
  else if !env.input_readable then
    .ok { result_type := .error
          input_path := input_path
          error := some "Cannot read file (permission denied)"
          error_category := some .permission_error
          fix_hint := some "Check file permissions or run with appropriate privileges" }
  else if !env.ffmpeg_available then
    .ok { result_type := .skip
          input_path := input_path
          reason := some ("ffmpeg not available at " ++ ffmpeg_cmd ++
            " (required for audio/video scrubbing)") }
  else
    match env.mkdir_fault with
    | some e => .error e
    | none =>
      if !env.output_dir_writable then
        .ok { result_type := .error
              input_path := input_path
              error := some "Cannot write to output directory (permission denied)"
              error_category := some .permission_error
              fix_hint := some "Check write permissions for the output directory" }
      else
        match env.tmp_create_fault with
        | some _ => .ok (catchAllResult input_path)
        | none =>
          match env.run_result with
          | .error .timeoutExpired =>
            .ok { result_type := .error
                  input_path := input_path
                  error := some "ffmpeg operation timed out (exceeded 5 minutes)"
                  error_category := some .processing_error
                  fix_hint := some "File may be too large or corrupted. Try smaller files." }
          | .error (.osError errno) => .ok (osErrorResult input_path errno)
          | .error (.otherExn _) => .ok (catchAllResult input_path)
          | .ok (returncode, stderr) =>
            if returncode ≠ 0 then
              let (category, hint) := classifyFfmpegStderr stderr
              .ok { result_type := .error
                    input_path := input_path
                    error := some (if stderr = "" then "ffmpeg failed to scrub metadata" else stderr)
                    error_category := some category
                    fix_hint := some hint }
            else
              match env.move_fault with
              | some (.osError errno) => .ok (osErrorResult input_path errno)
              | some _ => .ok (catchAllResult input_path)
              | none =>
                .ok { result_type := .success
                      input_path := input_path
                      output_path := some _output_path
                      metadata_removed := some "Container metadata stripped via ffmpeg" }

end MediaScrubber

/-! ### CLI exit code (`scrubmeta/cli.py`, `scrub_command`) -/

/-- Function `scrub_command`: validate the input path and create the output
directory (each failure exits 1), run `scrub_path` through the shared
core, then: exit 0 when no supported files were found
(`summary.total == 0`), exit 1 when `summary.errors` is non-zero, else
exit 0. -/
def scrub_command (env : RunEnv) (cfg : RunCfg)
    (scrub : FilePath0 → FilePath0 → ScrubResult × List Effect)
    (read : Nat → Bool) (out_mkdir_ok : Bool) : Nat :=
  if !env.input_exists then 1
  else if !out_mkdir_ok then 1
  else
    let out := scrub_path env cfg scrub read
    if out.summary.total = 0 then 0
    else if out.summary.errors ≠ 0 then 1
    else 0

/-! ## Shared concrete sample values for witness instantiations -/

/-- A sample provider behaviour: succeed and write the output file. -/
def sampleScrub : FilePath0 → FilePath0 → ScrubResult × List Effect :=
  fun f o => ({ result_type := .success, input_path := f, output_path := some o },
    [Effect.write o])

/-- A cancel-token read sequence that never observes cancellation. -/
def readNever : Nat → Bool := fun _ => false

/-- A sample run configuration: flat output into `out`, no overwrite,
not a dry run. -/
def sampleCfg : RunCfg :=
  { output_dir := ["out"]
    base_input_dir := ["in"]
    keep_structure := false
    overwrite := false
    dry_run := false }

/-- A sample environment whose input path does not exist. -/
def envNoInput : RunEnv :=
  { input_path := ⟨["in"], "x", ".png"⟩
    input_exists := false
    input_readable := true
    discovery := .ok []
    fs := ∅ }

/-- A media-run environment in which every step succeeds except
`output_path.parent.mkdir(parents=True, exist_ok=True)`, which raises an
`OSError` with errno 28 (`ENOSPC`, disk full — it could equally be a
`FileExistsError` when a path component exists as a regular file). -/
def mediaEnvMkdirFault : MediaEnv :=
  { input_exists := true
    input_readable := true
    ffmpeg_available := true
    mkdir_fault := some (.osError 28)
    output_dir_writable := true
    tmp_create_fault := none
    run_result := .ok (0, "")
    move_fault := none }

/-- An environment whose input path exists but is not readable: the core
run then yields a single ERROR outcome with `total = 0`. -/
def envUnreadable : RunEnv :=
  { input_path := ⟨["in"], "x", ".png"⟩
    input_exists := true
    input_readable := false
    discovery := .ok []
    fs := ∅ }

/-- An environment with a single discovered file one directory level
below the base input directory. -/
def envDryNested : RunEnv :=
  { input_path := ⟨[], "in", ""⟩
    input_exists := true
    input_readable := true
    discovery := .ok [⟨["in", "sub"], "a", ".png"⟩]
    fs := ∅ }

/-- A dry run that preserves directory structure. -/
def cfgDryKeep : RunCfg :=
  { output_dir := ["out"]
    base_input_dir := ["in"]
    keep_structure := true
    overwrite := false
    dry_run := true }

/-- An environment that discovers two supported files. -/
def envTwoFiles : RunEnv :=
  { input_path := ⟨[], "in", ""⟩
    input_exists := true
    input_readable := true
    discovery := .ok [⟨["in"], "a", ".png"⟩, ⟨["in"], "b", ".png"⟩]
    fs := ∅ }

/-- A read sequence that observes the token set from the second
iteration on (the token is cancelled from the first file's callback,
set-once, as in the repository's own cancellation test). -/
def readAfterFirst : Nat → Bool := fun i => decide (1 ≤ i)

/-- A sample directory subtree: three supported files at the first level
(one with an upper-case extension), an unsupported file, a subdirectory
and a supported file inside it. -/
def sampleEntries : List DirEntry :=
  [ ⟨["image2.png"], true⟩,
    ⟨["image1.JPG"], true⟩,
    ⟨["document.pdf"], true⟩,
    ⟨["ignored.txt"], true⟩,
    ⟨["subdir"], false⟩,
    ⟨["subdir", "nested.jpg"], true⟩ ]

/-! ## Claim theorems -/

/-- Claim C9: the CancelToken has set-once semantics — after a call to
`cancel`, `cancelled` reads true and stays true under any further
sequence of operations the class exposes (there is no rollback), and
`cancel` is idempotent. -/
theorem cancelToken_set_once (t : CancelToken) (ops : List TokenOp) :
    (t.cancel).cancelled = true ∧
    (CancelToken.runOps t.cancel ops).cancelled = true ∧
    t.cancel.cancel = t.cancel := by
  refine ⟨rfl, ?_, rfl⟩
  have h : ∀ (l : List TokenOp) (s : CancelToken), s.cancelled = true →
      (CancelToken.runOps s l).cancelled = true := by
    intro l
    induction l with
    | nil => intro s hs; exact hs
    | cons op rest ih =>
      intro s _
      cases op
      exact ih (CancelToken.applyOp s .cancelOp) rfl
  exact h ops t.cancel rfl

/-- Claim C7: when the input path does not exist, the run returns a single
ERROR outcome with category `input_error` and the summary
`{total := 0, success := 0, skipped := 0, errors := 1, cancelled := false}`,
performing no effect at all (no scanning, no processing) — whatever the
discovery oracle, the provider behaviour and the cancel token would have
done. -/
theorem scrub_path_missing_input (env : RunEnv) (cfg : RunCfg)
    (scrub : FilePath0 → FilePath0 → ScrubResult × List Effect)
    (read : Nat → Bool) (h : env.input_exists = false) :
    scrub_path env cfg scrub read =
      { results :=
          [{ result_type := .error
             input_path := env.input_path
             error := some "Input path does not exist"
             error_category := some .input_error
             fix_hint := some "Verify the path is correct" }]
        summary := ⟨0, 0, 0, 1, false⟩
        trace := [] } := by
  simp [scrub_path, h]

/-- Witness for C7: the theorem applied to a concrete environment. -/
theorem scrub_path_missing_input_witness :
    scrub_path envNoInput sampleCfg sampleScrub readNever =
      { results :=
          [{ result_type := .error
             input_path := ⟨["in"], "x", ".png"⟩
             error := some "Input path does not exist"
             error_category := some .input_error
             fix_hint := some "Verify the path is correct" }]
        summary := ⟨0, 0, 0, 1, false⟩
        trace := [] } :=
  scrub_path_missing_input envNoInput sampleCfg sampleScrub readNever rfl

/-- Claim C8: when no registered scrubber can handle the file's extension,
`scrub_file` returns a SKIP outcome whose reason names the extension —
never an ERROR outcome. -/
theorem scrub_file_unsupported (impl : Scrubber → FilePath0 → FilePath0 → ScrubResult)
    (input_path output_path : FilePath0)
    (h : ∀ s ∈ CoreScrubber.scrubbers, s.can_handle input_path = false) :
    CoreScrubber.scrub_file impl input_path output_path =
      { result_type := .skip
        input_path := input_path
        reason := some ("Unsupported file type: " ++ input_path.suffix) } ∧
    (CoreScrubber.scrub_file impl input_path output_path).result_type ≠ .error := by
  have hf : CoreScrubber.scrubbers.find? (fun s => s.can_handle input_path) = none := by
    rw [List.find?_eq_none]
    intro x hx
    simp [h x hx]
  refine ⟨?_, ?_⟩ <;> simp [CoreScrubber.scrub_file, hf]

/-- Witness for C8: a `.txt` file is handled by no scrubber and is
skipped with a reason naming `.txt`. -/
theorem scrub_file_unsupported_witness :
    CoreScrubber.scrub_file (fun _ f o => (sampleScrub f o).1)
        ⟨["in"], "notes", ".txt"⟩ ⟨["out"], "notes", ".txt"⟩ =
      { result_type := .skip
        input_path := ⟨["in"], "notes", ".txt"⟩
        reason := some "Unsupported file type: .txt" } ∧
    (CoreScrubber.scrub_file (fun _ f o => (sampleScrub f o).1)
        ⟨["in"], "notes", ".txt"⟩ ⟨["out"], "notes", ".txt"⟩).result_type ≠ .error :=
  scrub_file_unsupported (fun _ f o => (sampleScrub f o).1)
    ⟨["in"], "notes", ".txt"⟩ ⟨["out"], "notes", ".txt"⟩ (by decide)

/-- Claim C10: the four scrubbers' extension sets are pairwise disjoint
and their union is exactly `FileDiscovery.SUPPORTED_EXTENSIONS` (all
compared on the lower-cased extension); hence for every file whose
lower-cased suffix is in the discovery allow-list, exactly one scrubber's
`can_handle` holds, and `scrub_file` dispatches to that scrubber rather
than returning the unsupported-file-type SKIP. -/
theorem scrubber_partition :
    (∀ s t : Scrubber, s ≠ t →
      ∀ x ∈ s.SUPPORTED_FORMATS, x ∉ t.SUPPORTED_FORMATS) ∧
    (∀ x : String, x ∈ FileDiscovery.SUPPORTED_EXTENSIONS ↔
      ∃ s : Scrubber, x ∈ s.SUPPORTED_FORMATS) ∧
    (∀ f : FilePath0, strLower f.suffix ∈ FileDiscovery.SUPPORTED_EXTENSIONS →
      (∃! s : Scrubber, s.can_handle f = true) ∧
      ∀ (impl : Scrubber → FilePath0 → FilePath0 → ScrubResult) (output_path : FilePath0),
        ∃ s : Scrubber, s.can_handle f = true ∧
          CoreScrubber.scrub_file impl f output_path = impl s f output_path) := by
  have hdisj : ∀ s t : Scrubber, s ≠ t →
      ∀ x ∈ s.SUPPORTED_FORMATS, x ∉ t.SUPPORTED_FORMATS := by decide
  have hsub1 : ∀ x ∈ FileDiscovery.SUPPORTED_EXTENSIONS,
      ∃ s : Scrubber, x ∈ s.SUPPORTED_FORMATS := by decide
  have hsub2 : ∀ s : Scrubber, ∀ x ∈ s.SUPPORTED_FORMATS,
      x ∈ FileDiscovery.SUPPORTED_EXTENSIONS := by decide
  refine ⟨hdisj, ?_, ?_⟩
  · intro x
    exact ⟨hsub1 x, fun ⟨s, hs⟩ => hsub2 s x hs⟩
  · intro f hf
    obtain ⟨s, hs⟩ := hsub1 _ hf
    have hcan : s.can_handle f = true := by
      simpa [Scrubber.can_handle] using hs
    constructor
    · refine ⟨s, hcan, ?_⟩
      intro t ht
      by_contra hne
      exact hdisj t s hne (strLower f.suffix)
        (by simpa [Scrubber.can_handle] using ht) hs
    · intro impl output_path
      cases hfind : CoreScrubber.scrubbers.find? (fun s => s.can_handle f) with
      | none =>
        exfalso
        have := List.find?_eq_none.mp hfind s (by cases s <;> simp [CoreScrubber.scrubbers])
        exact this hcan
      | some s0 =>
        have hs0 := List.find?_some hfind
        refine ⟨s0, hs0, ?_⟩
        simp [CoreScrubber.scrub_file, hfind]

/-- Witness for C10: instantiated at the extension `.jpg` and at a
concrete `.jpg` file. -/
theorem scrubber_partition_witness :
    (".jpg" ∈ FileDiscovery.SUPPORTED_EXTENSIONS ↔
      ∃ s : Scrubber, ".jpg" ∈ s.SUPPORTED_FORMATS) ∧
    (∃! s : Scrubber, s.can_handle ⟨["in"], "a", ".jpg"⟩ = true) :=
  ⟨scrubber_partition.2.1 ".jpg",
   (scrubber_partition.2.2 ⟨["in"], "a", ".jpg"⟩ (by decide)).1⟩

/-- Claim C3 (evaluation at the failing input): a fault raised by
`output_path.parent.mkdir` inside `MediaScrubber.scrub` — a line that
sits above the `try` block (`media_scrubber.py` line 87) — escapes the
provider uncaught instead of being converted to an
`Error{processing_error}` outcome.  The orchestrator loop in
`core.py` has no handler either, so the claimed containment boundary
does not hold. -/
theorem media_scrub_uncontained_mkdir_fault :
    MediaScrubber.scrub mediaEnvMkdirFault ⟨["in"], "song", ".mp3"⟩
      ⟨["out"], "song", ".mp3"⟩ "ffmpeg" = .error (.osError 28) := rfl

/-- Counterexample to claim C4 as stated: a run in which an ERROR outcome
occurred (`summary.errors = 1`, one ERROR result recorded) but the CLI
exits 0, because `scrub_command` returns 0 whenever `summary.total = 0`
before ever looking at the errors. -/
theorem scrub_command_zero_exit_despite_error :
    scrub_command envUnreadable sampleCfg sampleScrub readNever true = 0 ∧
    (scrub_path envUnreadable sampleCfg sampleScrub readNever).summary.errors = 1 ∧
    (scrub_path envUnreadable sampleCfg sampleScrub readNever).results.countP
      (fun r => r.result_type == .error) = 1 :=
  ⟨rfl, rfl, rfl⟩

/-- Claim C4 (amended): the CLI exit code is always 0 or 1, and it is 0
exactly when CLI-level validation passed (input exists, output directory
creatable) and the run either discovered no candidates
(`summary.total = 0` — even if a run-level ERROR outcome occurred, such
as an unreadable input path) or completed with zero ERROR outcomes. -/
theorem scrub_command_exit_code (env : RunEnv) (cfg : RunCfg)
    (scrub : FilePath0 → FilePath0 → ScrubResult × List Effect)
    (read : Nat → Bool) (out_mkdir_ok : Bool) :
    (scrub_command env cfg scrub read out_mkdir_ok = 0 ∨
     scrub_command env cfg scrub read out_mkdir_ok = 1) ∧
    (scrub_command env cfg scrub read out_mkdir_ok = 0 ↔
      (env.input_exists = true ∧ out_mkdir_ok = true ∧
        ((scrub_path env cfg scrub read).summary.total = 0 ∨
         (scrub_path env cfg scrub read).summary.errors = 0))) := by
  unfold scrub_command
  cases henv : env.input_exists with
  | false => simp [henv]
  | true =>
    cases hok : out_mkdir_ok with
    | false => simp
    | true =>
      by_cases ht : (scrub_path env cfg scrub read).summary.total = 0
      · simp [ht]
      · by_cases he : (scrub_path env cfg scrub read).summary.errors = 0
        · simp [ht, he]
        · simp [ht, he]

/-- Counterexample to claim C2 as stated: in a dry run with
`keep_structure`, processing the file records the dry-run SKIP outcome,
but the filesystem IS touched for that file — output-path resolution runs
before the dry-run check (`core.py` line 201 before line 203) and
`get_output_path` creates the destination's parent directory
(`file_utils.py` line 90), as the run's effect trace shows. -/
theorem scrub_path_dry_run_touches_fs :
    (scrub_path envDryNested cfgDryKeep sampleScrub readNever).results =
      [{ result_type := .skip
         input_path := ⟨["in", "sub"], "a", ".png"⟩
         output_path := some ⟨["out", "sub"], "a", ".png"⟩
         reason := some "dry-run (no changes written)" }] ∧
    (scrub_path envDryNested cfgDryKeep sampleScrub readNever).trace =
      [Effect.mkdirp ["out"], Effect.mkdirp ["out", "sub"]] :=
  ⟨rfl, rfl⟩

/-- Applying `tally` only updates counters: the trace is untouched. -/
theorem tally_trace (r : ScrubResult) (st : RunState) : (tally r st).trace = st.trace := by
  unfold tally
  cases r.result_type <;> rfl

/-- Applying `tally` adds exactly one to the sum of the three counters. -/
theorem tally_sum (r : ScrubResult) (st : RunState) :
    (tally r st).success + (tally r st).skipped + (tally r st).errors =
      st.success + st.skipped + st.errors + 1 := by
  unfold tally
  cases r.result_type <;> simp <;> omega

/-- The effects of `get_output_path` are exactly those of the structural
path computation (the collision branch adds none). -/
theorem get_output_path_snd (m : OutputManager) (fs : Finset FilePath0)
    (input_path : FilePath0) (base_input_dir : List String) :
    (m.get_output_path fs input_path base_input_dir).2 =
      (m.plain_output_path input_path base_input_dir).2 := by
  unfold OutputManager.get_output_path
  rcases hp : m.plain_output_path input_path base_input_dir with ⟨op, effs⟩
  simp only [hp]
  split <;> rfl

/-- Every effect of the structural path computation is a directory
creation. -/
theorem plain_output_path_effects (m : OutputManager) (input_path : FilePath0)
    (base_input_dir : List String) :
    ∀ e ∈ (m.plain_output_path input_path base_input_dir).2,
      ∃ d, e = Effect.mkdirp d := by
  unfold OutputManager.plain_output_path
  split
  · intro e he
    simp only [List.mem_singleton] at he
    exact ⟨_, he⟩
  · intro e he
    simp at he

/-- In a dry run, the loop records only dry-run SKIP results and, as long
as the incoming trace holds only directory creations, so does the final
trace (no provider invocation, no file write). -/
theorem processFiles_dry_run (cfg : RunCfg)
    (scrub : FilePath0 → FilePath0 → ScrubResult × List Effect)
    (read : Nat → Bool) (hdry : cfg.dry_run = true) :
    ∀ (files : List FilePath0) (i : Nat) (st : RunState),
      (∀ e ∈ st.trace, ∃ d, e = Effect.mkdirp d) →
      (∀ r ∈ (processFiles cfg scrub read files i st).1,
        r.result_type = .skip ∧ r.reason = some "dry-run (no changes written)") ∧
      (∀ e ∈ (processFiles cfg scrub read files i st).2.1.trace,
        ∃ d, e = Effect.mkdirp d) := by
  intro files
  induction files with
  | nil =>
    intro i st hst
    exact ⟨by intro r hr; simp [processFiles] at hr, hst⟩
  | cons f rest ih =>
    intro i st hst
    by_cases hread : read i = true
    · simpa [processFiles, hread] using hst
    · have hread' : read i = false := by simpa using hread
      have hstep : processFiles cfg scrub read (f :: rest) i st =
          let (r, st1) := processOne cfg scrub st f
          let (rs, st2, c) := processFiles cfg scrub read rest (i + 1) st1
          (r :: rs, st2, c) := by
        simp [processFiles, hread']
      rcases hone : processOne cfg scrub st f with ⟨r, st1⟩
      have hr : r = { result_type := .skip
                      input_path := f
                      output_path :=
                        some ((OutputManager.mk cfg.output_dir cfg.overwrite
                          cfg.keep_structure).get_output_path st.fs f cfg.base_input_dir).1
                      reason := some "dry-run (no changes written)" } := by
        have := hone
        unfold processOne at this
        simp [hdry] at this
        exact this.1.symm
      have hst1 : st1.trace = st.trace ++
          ((OutputManager.mk cfg.output_dir cfg.overwrite
            cfg.keep_structure).get_output_path st.fs f cfg.base_input_dir).2 := by
        have := hone
        unfold processOne at this
        simp [hdry] at this
        rw [← this.2]
        simp [tally_trace]
      have hst1all : ∀ e ∈ st1.trace, ∃ d, e = Effect.mkdirp d := by
        intro e he
        rw [hst1] at he
        rcases List.mem_append.mp he with h | h
        · exact hst e h
        · rw [get_output_path_snd] at h
          exact plain_output_path_effects _ _ _ e h
      have hrest := ih (i + 1) st1 hst1all
      rw [hstep]
      simp only [hone]
      rcases hpf : processFiles cfg scrub read rest (i + 1) st1 with ⟨rs, st2, c⟩
      rw [hpf] at hrest
      refine ⟨?_, hrest.2⟩
      intro r' hr'
      rcases List.mem_cons.mp hr' with h | h
      · subst h
        rw [hr]
        exact ⟨rfl, rfl⟩
      · exact hrest.1 r' h

/-- Claim C2 (amended): in a dry run that reaches the processing loop,
every recorded outcome is a SKIP with reason
`"dry-run (no changes written)"`, no provider is invoked and no file is
written — every effect of the run is a directory creation (output-root
creation, and, under `keep_structure`, per-file parent-directory
creation; dropping the latter is what the counterexample above forces). -/
theorem scrub_path_dry_run (env : RunEnv) (cfg : RunCfg)
    (scrub : FilePath0 → FilePath0 → ScrubResult × List Effect)
    (read : Nat → Bool) (files : List FilePath0)
    (hex : env.input_exists = true) (hrd : env.input_readable = true)
    (hdisc : env.discovery = .ok files) (hdry : cfg.dry_run = true) :
    (∀ r ∈ (scrub_path env cfg scrub read).results,
      r.result_type = .skip ∧ r.reason = some "dry-run (no changes written)") ∧
    (∀ e ∈ (scrub_path env cfg scrub read).trace, ∃ d, e = Effect.mkdirp d) := by
  have h0 : ∀ e ∈ [Effect.mkdirp cfg.output_dir], ∃ d, e = Effect.mkdirp d := by
    intro e he
    simp only [List.mem_singleton] at he
    exact ⟨_, he⟩
  have hloop := processFiles_dry_run cfg scrub read hdry files 0
    ⟨0, 0, 0, env.fs, [Effect.mkdirp cfg.output_dir]⟩ h0
  unfold scrub_path
  simp only [hex, hrd, hdisc]
  rcases hpf : processFiles cfg scrub read files 0
      ⟨0, 0, 0, env.fs, [Effect.mkdirp cfg.output_dir]⟩ with ⟨rs, st, c⟩
  rw [hpf] at hloop
  simpa using hloop

/-- Witness for the amended C2: the dry run of the concrete nested-file
environment records the SKIP outcome and its whole trace consists of
directory creations. -/
theorem scrub_path_dry_run_witness :
    ({ result_type := .skip
       input_path := ⟨["in", "sub"], "a", ".png"⟩
       output_path := some ⟨["out", "sub"], "a", ".png"⟩
       reason := some "dry-run (no changes written)" } : ScrubResult).result_type = .skip ∧
    (∃ d, (Effect.mkdirp ["out", "sub"]) = Effect.mkdirp d) := by
  have hres : (scrub_path envDryNested cfgDryKeep sampleScrub readNever).results =
      [{ result_type := .skip
         input_path := ⟨["in", "sub"], "a", ".png"⟩
         output_path := some ⟨["out", "sub"], "a", ".png"⟩
         reason := some "dry-run (no changes written)" }] := rfl
  have htr : (scrub_path envDryNested cfgDryKeep sampleScrub readNever).trace =
      [Effect.mkdirp ["out"], Effect.mkdirp ["out", "sub"]] := rfl
  constructor
  · refine ((scrub_path_dry_run envDryNested cfgDryKeep sampleScrub readNever
      [⟨["in", "sub"], "a", ".png"⟩] rfl rfl rfl rfl).1 _ ?_).1
    rw [hres]
    exact List.mem_singleton.mpr rfl
  · refine (scrub_path_dry_run envDryNested cfgDryKeep sampleScrub readNever
      [⟨["in", "sub"], "a", ".png"⟩] rfl rfl rfl rfl).2 _ ?_
    rw [htr]
    simp

/-- Unfolding `tally` by result type: the success counter. -/
theorem tally_success (r : ScrubResult) (st : RunState) :
    (tally r st).success = st.success + (if r.result_type = .success then 1 else 0) := by
  unfold tally
  cases r.result_type <;> simp

/-- Unfolding `tally` by result type: the skipped counter. -/
theorem tally_skipped (r : ScrubResult) (st : RunState) :
    (tally r st).skipped = st.skipped + (if r.result_type = .skip then 1 else 0) := by
  unfold tally
  cases r.result_type <;> simp

/-- Unfolding `tally` by result type: the errors counter. -/
theorem tally_errors (r : ScrubResult) (st : RunState) :
    (tally r st).errors = st.errors + (if r.result_type = .error then 1 else 0) := by
  unfold tally
  cases r.result_type <;> simp

/-- The state `processOne` returns differs from its tally source only in
counters, and those are the incoming counters bumped by the produced
result's type. -/
theorem processOne_counters (cfg : RunCfg)
    (scrub : FilePath0 → FilePath0 → ScrubResult × List Effect)
    (st : RunState) (f : FilePath0) :
    (processOne cfg scrub st f).2.success =
      st.success + (if (processOne cfg scrub st f).1.result_type = .success then 1 else 0) ∧
    (processOne cfg scrub st f).2.skipped =
      st.skipped + (if (processOne cfg scrub st f).1.result_type = .skip then 1 else 0) ∧
    (processOne cfg scrub st f).2.errors =
      st.errors + (if (processOne cfg scrub st f).1.result_type = .error then 1 else 0) := by
  unfold processOne
  refine ⟨?_, ?_, ?_⟩ <;> simp [tally_success, tally_skipped, tally_errors]

/-- The loop's final counters are the incoming counters plus the counts
of each result type among the recorded outcomes. -/
theorem processFiles_counters (cfg : RunCfg)
    (scrub : FilePath0 → FilePath0 → ScrubResult × List Effect)
    (read : Nat → Bool) :
    ∀ (files : List FilePath0) (i : Nat) (st : RunState),
      (processFiles cfg scrub read files i st).2.1.success =
        st.success + (processFiles cfg scrub read files i st).1.countP
          (fun r => r.result_type == .success) ∧
      (processFiles cfg scrub read files i st).2.1.skipped =
        st.skipped + (processFiles cfg scrub read files i st).1.countP
          (fun r => r.result_type == .skip) ∧
      (processFiles cfg scrub read files i st).2.1.errors =
        st.errors + (processFiles cfg scrub read files i st).1.countP
          (fun r => r.result_type == .error) := by
  intro files
  induction files with
  | nil =>
    intro i st
    simp [processFiles]
  | cons f rest ih =>
    intro i st
    by_cases hread : read i = true
    · simp [processFiles, hread]
    · have hread' : read i = false := by simpa using hread
      rcases hone : processOne cfg scrub st f with ⟨r, st1⟩
      have hco := processOne_counters cfg scrub st f
      rw [hone] at hco
      have hstep : processFiles cfg scrub read (f :: rest) i st =
          (r :: (processFiles cfg scrub read rest (i + 1) st1).1,
           (processFiles cfg scrub read rest (i + 1) st1).2.1,
           (processFiles cfg scrub read rest (i + 1) st1).2.2) := by
        simp [processFiles, hread', hone]
      have hrest := ih (i + 1) st1
      rw [hstep]
      simp only [List.countP_cons]
      refine ⟨?_, ?_, ?_⟩
      · rw [hrest.1, hco.1]
        cases hrt : r.result_type <;> (simp [hrt]; try omega)
      · rw [hrest.2.1, hco.2.1]
        cases hrt : r.result_type <;> (simp [hrt]; try omega)
      · rw [hrest.2.2, hco.2.2]
        cases hrt : r.result_type <;> (simp [hrt]; try omega)

/-- When the cancel read comes back true at some position within the
candidate list, the loop reports cancellation, records strictly fewer
outcomes than there are candidates, and stops exactly at the first
position whose read is true. -/
theorem processFiles_cancel (cfg : RunCfg)
    (scrub : FilePath0 → FilePath0 → ScrubResult × List Effect)
    (read : Nat → Bool) :
    ∀ (files : List FilePath0) (i : Nat) (st : RunState),
      (∃ k, k < files.length ∧ read (i + k) = true) →
      (processFiles cfg scrub read files i st).2.2 = true ∧
      (processFiles cfg scrub read files i st).1.length < files.length ∧
      read (i + (processFiles cfg scrub read files i st).1.length) = true ∧
      ∀ j < (processFiles cfg scrub read files i st).1.length, read (i + j) = false := by
  intro files
  induction files with
  | nil =>
    intro i st hobs
    obtain ⟨k, hk, _⟩ := hobs
    simp at hk
  | cons f rest ih =>
    intro i st hobs
    by_cases hread : read i = true
    · refine ⟨by simp [processFiles, hread], by simp [processFiles, hread], ?_, ?_⟩
      · simp [processFiles, hread]
      · intro j hj
        simp [processFiles, hread] at hj
    · have hread' : read i = false := by simpa using hread
      rcases hone : processOne cfg scrub st f with ⟨r, st1⟩
      have hstep : processFiles cfg scrub read (f :: rest) i st =
          (r :: (processFiles cfg scrub read rest (i + 1) st1).1,
           (processFiles cfg scrub read rest (i + 1) st1).2.1,
           (processFiles cfg scrub read rest (i + 1) st1).2.2) := by
        simp [processFiles, hread', hone]
      have hobs' : ∃ k, k < rest.length ∧ read (i + 1 + k) = true := by
        obtain ⟨k, hk, hrk⟩ := hobs
        cases k with
        | zero => exact absurd (by simpa using hrk) (by simp [hread'])
        | succ k' =>
          exact ⟨k', by simpa using hk, by
            have : i + 1 + k' = i + (k' + 1) := by omega
            rw [this]
            exact hrk⟩
      have hrest := ih (i + 1) st1 hobs'
      rw [hstep]
      refine ⟨hrest.1, by simpa using hrest.2.1, ?_, ?_⟩
      · have : i + (r :: (processFiles cfg scrub read rest (i + 1) st1).1).length =
            i + 1 + (processFiles cfg scrub read rest (i + 1) st1).1.length := by
          simp
          omega
        rw [this]
        exact hrest.2.2.1
      · intro j hj
        cases j with
        | zero => simpa using hread'
        | succ j' =>
          have hj' : j' < (processFiles cfg scrub read rest (i + 1) st1).1.length := by
            simpa using hj
          have : i + (j' + 1) = i + 1 + j' := by omega
          rw [this]
          exact hrest.2.2.2 j' hj'

/-- The three per-type counts of a result list add up to its length. -/
theorem countP_result_types (rs : List ScrubResult) :
    rs.countP (fun r => r.result_type == .success) +
      rs.countP (fun r => r.result_type == .skip) +
      rs.countP (fun r => r.result_type == .error) = rs.length := by
  induction rs with
  | nil => simp
  | cons r rest ih =>
    simp only [List.countP_cons, List.length_cons]
    cases hrt : r.result_type <;> simp [hrt] <;> omega

/-- Claim C1: if discovery succeeds with the candidate list `files` and
the cancel token is observed set before some iteration, the run stops at
the first iteration whose read observes the token set (so strictly fewer
outcomes are recorded than candidates), the summary has
`cancelled = true` and `total = files.length`, `skipped` is the number of
SKIP outcomes recorded plus all unprocessed candidates
(`total - number of recorded outcomes`), and
`success + skipped + errors = total`. -/
theorem scrub_path_cancelled (env : RunEnv) (cfg : RunCfg)
    (scrub : FilePath0 → FilePath0 → ScrubResult × List Effect)
    (read : Nat → Bool) (files : List FilePath0)
    (hex : env.input_exists = true) (hrd : env.input_readable = true)
    (hdisc : env.discovery = .ok files)
    (hobs : ∃ k, k < files.length ∧ read k = true) :
    (scrub_path env cfg scrub read).summary.cancelled = true ∧
    (scrub_path env cfg scrub read).summary.total = files.length ∧
    (scrub_path env cfg scrub read).results.length < files.length ∧
    read ((scrub_path env cfg scrub read).results.length) = true ∧
    (∀ j < (scrub_path env cfg scrub read).results.length, read j = false) ∧
    (scrub_path env cfg scrub read).summary.skipped =
      (scrub_path env cfg scrub read).results.countP (fun r => r.result_type == .skip) +
        (files.length - (scrub_path env cfg scrub read).results.length) ∧
    (scrub_path env cfg scrub read).summary.success +
      (scrub_path env cfg scrub read).summary.skipped +
      (scrub_path env cfg scrub read).summary.errors = files.length := by
  have st0 : RunState := ⟨0, 0, 0, env.fs, [Effect.mkdirp cfg.output_dir]⟩
  have hobs0 : ∃ k, k < files.length ∧ read (0 + k) = true := by
    simpa using hobs
  have hcanc := processFiles_cancel cfg scrub read files 0
    ⟨0, 0, 0, env.fs, [Effect.mkdirp cfg.output_dir]⟩ hobs0
  have hcnt := processFiles_counters cfg scrub read files 0
    ⟨0, 0, 0, env.fs, [Effect.mkdirp cfg.output_dir]⟩
  have hout : scrub_path env cfg scrub read =
      { results := (processFiles cfg scrub read files 0
          ⟨0, 0, 0, env.fs, [Effect.mkdirp cfg.output_dir]⟩).1
        summary :=
          ⟨files.length,
           (processFiles cfg scrub read files 0
             ⟨0, 0, 0, env.fs, [Effect.mkdirp cfg.output_dir]⟩).2.1.success,
           (if (processFiles cfg scrub read files 0
                 ⟨0, 0, 0, env.fs, [Effect.mkdirp cfg.output_dir]⟩).2.2 &&
               decide ((processFiles cfg scrub read files 0
                 ⟨0, 0, 0, env.fs, [Effect.mkdirp cfg.output_dir]⟩).1.length < files.length) then
              (processFiles cfg scrub read files 0
                ⟨0, 0, 0, env.fs, [Effect.mkdirp cfg.output_dir]⟩).2.1.skipped +
                (files.length - (processFiles cfg scrub read files 0
                  ⟨0, 0, 0, env.fs, [Effect.mkdirp cfg.output_dir]⟩).1.length)
            else (processFiles cfg scrub read files 0
              ⟨0, 0, 0, env.fs, [Effect.mkdirp cfg.output_dir]⟩).2.1.skipped),
           (processFiles cfg scrub read files 0
             ⟨0, 0, 0, env.fs, [Effect.mkdirp cfg.output_dir]⟩).2.1.errors,
           (processFiles cfg scrub read files 0
             ⟨0, 0, 0, env.fs, [Effect.mkdirp cfg.output_dir]⟩).2.2⟩
        trace := (processFiles cfg scrub read files 0
          ⟨0, 0, 0, env.fs, [Effect.mkdirp cfg.output_dir]⟩).2.1.trace } := by
    unfold scrub_path
    simp [hex, hrd, hdisc]
  rw [hout]
  have hif : ((processFiles cfg scrub read files 0
        ⟨0, 0, 0, env.fs, [Effect.mkdirp cfg.output_dir]⟩).2.2 &&
      decide ((processFiles cfg scrub read files 0
        ⟨0, 0, 0, env.fs, [Effect.mkdirp cfg.output_dir]⟩).1.length < files.length)) = true := by
    rw [hcanc.1]
    simpa using hcanc.2.1
  refine ⟨hcanc.1, rfl, hcanc.2.1, by simpa using hcanc.2.2.1,
    by intro j hj; simpa using hcanc.2.2.2 j hj, ?_, ?_⟩
  · simp only [hif, if_true]
    rw [hcnt.2.1]
    simp
  · simp only [hif, if_true]
    rw [hcnt.1, hcnt.2.1, hcnt.2.2]
    have hsum := countP_result_types (processFiles cfg scrub read files 0
      ⟨0, 0, 0, env.fs, [Effect.mkdirp cfg.output_dir]⟩).1
    have hlt := hcanc.2.1
    dsimp only
    omega

/-- Witness for C1: for the two-file run cancelled after the first
outcome, the summary is `{total := 2, success := 1, skipped := 1,
errors := 0, cancelled := true}` with exactly one recorded outcome. -/
theorem scrub_path_cancelled_witness :
    (scrub_path envTwoFiles sampleCfg sampleScrub readAfterFirst).summary.cancelled = true ∧
    (scrub_path envTwoFiles sampleCfg sampleScrub readAfterFirst).summary.total = 2 ∧
    (scrub_path envTwoFiles sampleCfg sampleScrub readAfterFirst).results.length < 2 ∧
    readAfterFirst ((scrub_path envTwoFiles sampleCfg sampleScrub readAfterFirst).results.length)
      = true ∧
    (scrub_path envTwoFiles sampleCfg sampleScrub readAfterFirst).summary.skipped =
      (scrub_path envTwoFiles sampleCfg sampleScrub readAfterFirst).results.countP
        (fun r => r.result_type == .skip) + 1 ∧
    (scrub_path envTwoFiles sampleCfg sampleScrub readAfterFirst).summary.success +
      (scrub_path envTwoFiles sampleCfg sampleScrub readAfterFirst).summary.skipped +
      (scrub_path envTwoFiles sampleCfg sampleScrub readAfterFirst).summary.errors = 2 := by
  have h := scrub_path_cancelled envTwoFiles sampleCfg sampleScrub readAfterFirst
    [⟨["in"], "a", ".png"⟩, ⟨["in"], "b", ".png"⟩] rfl rfl rfl ⟨1, by decide, rfl⟩
  exact ⟨h.1, h.2.1, h.2.2.1, h.2.2.2.1, by
    have hlen : (scrub_path envTwoFiles sampleCfg sampleScrub readAfterFirst).results.length
        = 1 := rfl
    have := h.2.2.2.2.2.1
    rw [hlen] at this
    exact this, h.2.2.2.2.2.2⟩

/-! ### Injectivity of the decimal rendering used in `_clean_{n}` names -/

/-- The function `Nat.toDigitsCore` agrees with the reversed decimal digit list, given
enough fuel. -/
theorem toDigitsCore_eq_digits :
    ∀ (f n : Nat) (ds : List Char), 0 < n → n ≤ f →
      Nat.toDigitsCore 10 f n ds =
        ((Nat.digits 10 n).map Nat.digitChar).reverse ++ ds := by
  intro f
  induction f with
  | zero =>
    intro n ds hn hf
    omega
  | succ f ih =>
    intro n ds hn hf
    rw [Nat.toDigitsCore]
    by_cases h10 : n / 10 = 0
    · simp only [h10, if_true, reduceIte]
      rw [Nat.digits_def' (by norm_num : (1 : ℕ) < 10) hn, h10]
      simp
    · have hpos : 0 < n / 10 := Nat.pos_of_ne_zero h10
      have hlt : n / 10 < n := Nat.div_lt_self hn (by norm_num)
      have hle : n / 10 ≤ f := by omega
      simp only [h10, if_false, reduceIte]
      rw [ih (n / 10) (Nat.digitChar (n % 10) :: ds) hpos hle]
      rw [Nat.digits_def' (by norm_num : (1 : ℕ) < 10) hn]
      simp

/-- The rendering `Nat.toDigits` of a positive number is the reversed mapped digit
list. -/
theorem toDigits_eq_digits (n : Nat) (hn : 0 < n) :
    Nat.toDigits 10 n = ((Nat.digits 10 n).map Nat.digitChar).reverse := by
  unfold Nat.toDigits
  rw [toDigitsCore_eq_digits (n + 1) n [] hn (by omega)]
  simp

/-- The map `Nat.digitChar` is injective on digits below 10. -/
theorem digitChar_inj_lt_ten :
    ∀ a < 10, ∀ b < 10, Nat.digitChar a = Nat.digitChar b → a = b := by decide

/-- Mapping `Nat.digitChar` over lists of digits below 10 is injective. -/
theorem map_digitChar_inj :
    ∀ (l1 l2 : List Nat), (∀ x ∈ l1, x < 10) → (∀ x ∈ l2, x < 10) →
      l1.map Nat.digitChar = l2.map Nat.digitChar → l1 = l2 := by
  intro l1
  induction l1 with
  | nil =>
    intro l2 _ _ h
    cases l2 with
    | nil => rfl
    | cons b bs => simp at h
  | cons a as ih =>
    intro l2 h1 h2 h
    cases l2 with
    | nil => simp at h
    | cons b bs =>
      simp only [List.map_cons, List.cons.injEq] at h
      have ha : a = b := digitChar_inj_lt_ten a (h1 a (by simp)) b (h2 b (by simp)) h.1
      have hs : as = bs := ih bs (fun x hx => h1 x (by simp [hx]))
        (fun x hx => h2 x (by simp [hx])) h.2
      rw [ha, hs]

/-- The decimal rendering `Nat.repr` (the `toString` of a natural
number) is injective. -/
theorem nat_repr_inj : ∀ a b : Nat, Nat.repr a = Nat.repr b → a = b := by
  have hdig : ∀ n : Nat, 0 < n → Nat.digits 10 n ≠ [0] := by
    intro n hn hcontra
    have := Nat.ofDigits_digits 10 n
    rw [hcontra] at this
    simp [Nat.ofDigits] at this
    omega
  have hchars : ∀ a b : Nat, Nat.repr a = Nat.repr b →
      Nat.toDigits 10 a = Nat.toDigits 10 b := by
    intro a b h
    have : (Nat.toDigits 10 a).asString.data = (Nat.toDigits 10 b).asString.data :=
      congrArg String.data h
    simpa [List.asString] using this
  intro a b h
  have hl := hchars a b h
  rcases Nat.eq_zero_or_pos a with ha | ha
  · rcases Nat.eq_zero_or_pos b with hb | hb
    · rw [ha, hb]
    · exfalso
      rw [ha] at hl
      rw [toDigits_eq_digits b hb] at hl
      have hz : Nat.toDigits 10 0 = ['0'] := by decide
      rw [hz] at hl
      have hmap : (Nat.digits 10 b).map Nat.digitChar = ['0'] := by
        have := congrArg List.reverse hl
        simpa using this.symm
      have : Nat.digits 10 b = [0] := by
        refine map_digitChar_inj (Nat.digits 10 b) [0]
          (fun x hx => Nat.digits_lt_base (by norm_num) hx) (by simp) ?_
        simpa using hmap
      exact hdig b hb this
  · rcases Nat.eq_zero_or_pos b with hb | hb
    · exfalso
      rw [hb] at hl
      rw [toDigits_eq_digits a ha] at hl
      have hz : Nat.toDigits 10 0 = ['0'] := by decide
      rw [hz] at hl
      have hmap : (Nat.digits 10 a).map Nat.digitChar = ['0'] := by
        have := congrArg List.reverse hl
        simpa using this
      have : Nat.digits 10 a = [0] := by
        refine map_digitChar_inj (Nat.digits 10 a) [0]
          (fun x hx => Nat.digits_lt_base (by norm_num) hx) (by simp) ?_
        simpa using hmap
      exact hdig a ha this
    · rw [toDigits_eq_digits a ha, toDigits_eq_digits b hb] at hl
      have hmap := List.reverse_injective hl
      have hdigits := map_digitChar_inj (Nat.digits 10 a) (Nat.digits 10 b)
        (fun x hx => Nat.digits_lt_base (by norm_num) hx)
        (fun x hx => Nat.digits_lt_base (by norm_num) hx) hmap
      have := Nat.ofDigits_digits 10 a
      rw [hdigits, Nat.ofDigits_digits 10 b] at this
      exact this.symm

/-- Distinct counters give distinct `_clean_{n}` candidate paths. -/
theorem mkCleanPath_inj (p : FilePath0) :
    ∀ m n : Nat, mkCleanPath p m = mkCleanPath p n → m = n := by
  intro m n h
  have hs : p.stem ++ "_clean_" ++ toString m = p.stem ++ "_clean_" ++ toString n :=
    congrArg FilePath0.stem h
  have hdata : (p.stem ++ "_clean_").data ++ (toString m).data =
      (p.stem ++ "_clean_").data ++ (toString n).data := by
    have := congrArg String.data hs
    simpa [String.data_append, String.append_assoc] using this
  have hrepr : (toString m).data = (toString n).data :=
    List.append_cancel_left hdata
  exact nat_repr_inj m n (String.ext hrepr)

/-! ### Correctness of the collision loop -/

/-- If some candidate within the fuel bound is free, `uniqueLoop` stops
at the first free candidate at or after its starting counter. -/
theorem uniqueLoop_spec (fs : Finset FilePath0) (p : FilePath0) :
    ∀ (fuel counter : Nat),
      (∃ k, k < fuel ∧ mkCleanPath p (counter + k) ∉ fs) →
      ∃ k, k < fuel ∧ uniqueLoop fs p counter fuel = mkCleanPath p (counter + k) ∧
        mkCleanPath p (counter + k) ∉ fs ∧
        ∀ j < k, mkCleanPath p (counter + j) ∈ fs := by
  intro fuel
  induction fuel with
  | zero =>
    intro counter hfree
    obtain ⟨k, hk, _⟩ := hfree
    omega
  | succ fuel ih =>
    intro counter hfree
    by_cases hmem : mkCleanPath p counter ∈ fs
    · have hloop : uniqueLoop fs p counter (fuel + 1) = uniqueLoop fs p (counter + 1) fuel := by
        simp [uniqueLoop, hmem]
      obtain ⟨k, hk, hkfree⟩ := hfree
      have hk0 : k ≠ 0 := by
        intro h0
        rw [h0] at hkfree
        simp at hkfree
        exact hkfree hmem
      obtain ⟨k', rfl⟩ : ∃ k', k = k' + 1 := ⟨k - 1, by omega⟩
      have hfree' : ∃ j, j < fuel ∧ mkCleanPath p (counter + 1 + j) ∉ fs := by
        refine ⟨k', by omega, ?_⟩
        have : counter + 1 + k' = counter + (k' + 1) := by omega
        rw [this]
        exact hkfree
      obtain ⟨j, hj, hjeq, hjfree, hjall⟩ := ih (counter + 1) hfree'
      refine ⟨j + 1, by omega, ?_, ?_, ?_⟩
      · rw [hloop, hjeq]
        have : counter + 1 + j = counter + (j + 1) := by omega
        rw [this]
      · have : counter + (j + 1) = counter + 1 + j := by omega
        rw [this]
        exact hjfree
      · intro i hi
        cases i with
        | zero => simpa using hmem
        | succ i' =>
          have : counter + (i' + 1) = counter + 1 + i' := by omega
          rw [this]
          exact hjall i' (by omega)
    · refine ⟨0, by omega, ?_, by simpa using hmem, by intro j hj; omega⟩
      simp [uniqueLoop, hmem]

/-- Within `fs.card + 1` consecutive candidates at least one is free:
they are pairwise distinct, so they cannot all lie in `fs`. -/
theorem exists_free_candidate (fs : Finset FilePath0) (p : FilePath0) (counter : Nat) :
    ∃ k, k < fs.card + 1 ∧ mkCleanPath p (counter + k) ∉ fs := by
  by_contra hall
  push_neg at hall
  have hmaps : ∀ k ∈ Finset.range (fs.card + 1), mkCleanPath p (counter + k) ∈ fs :=
    fun k hk => hall k (Finset.mem_range.mp hk)
  have hinj : Set.InjOn (fun k => mkCleanPath p (counter + k))
      (Finset.range (fs.card + 1)) := by
    intro x _ y _ hxy
    have := mkCleanPath_inj p (counter + x) (counter + y) hxy
    omega
  have hcard := Finset.card_le_card_of_injOn
    (fun k => mkCleanPath p (counter + k)) hmaps hinj
  simp at hcard

/-- Calling `_get_unique_path` on an existing path returns the `_clean_{n}`
variant for the least free counter `n ≥ 1`. -/
theorem get_unique_path_spec (fs : Finset FilePath0) (p : FilePath0) (hp : p ∈ fs) :
    ∃ n, 1 ≤ n ∧ OutputManager._get_unique_path fs p = mkCleanPath p n ∧
      mkCleanPath p n ∉ fs ∧ ∀ m, 1 ≤ m → m < n → mkCleanPath p m ∈ fs := by
  have hloop : OutputManager._get_unique_path fs p = uniqueLoop fs p 1 (fs.card + 1) := by
    simp [OutputManager._get_unique_path, hp]
  obtain ⟨k, hk, hkeq, hkfree, hkall⟩ :=
    uniqueLoop_spec fs p (fs.card + 1) 1 (exists_free_candidate fs p 1)
  refine ⟨1 + k, by omega, ?_, hkfree, ?_⟩
  · rw [hloop, hkeq]
  · intro m hm1 hmk
    obtain ⟨j, rfl⟩ : ∃ j, m = 1 + j := ⟨m - 1, by omega⟩
    exact hkall j (by omega)

/-- Claim C5: with `overwrite = true` the resolver returns the computed
path unchanged even if it exists; with `overwrite = false` on an already
existing computed path it returns the `<stem>_clean_<n><ext>` variant in
the same directory for the smallest `n ≥ 1` that does not collide with
any existing file (`mkCleanPath` keeps the parent directory and the
suffix and extends the stem with `_clean_` and the decimal counter). -/
theorem get_output_path_collision (m : OutputManager) (fs : Finset FilePath0)
    (input_path : FilePath0) (base_input_dir : List String) :
    (m.overwrite = true →
      (m.get_output_path fs input_path base_input_dir).1 =
        (m.plain_output_path input_path base_input_dir).1) ∧
    (m.overwrite = false →
      (m.plain_output_path input_path base_input_dir).1 ∈ fs →
      ∃ n, 1 ≤ n ∧
        (m.get_output_path fs input_path base_input_dir).1 =
          mkCleanPath (m.plain_output_path input_path base_input_dir).1 n ∧
        mkCleanPath (m.plain_output_path input_path base_input_dir).1 n ∉ fs ∧
        ∀ k, 1 ≤ k → k < n →
          mkCleanPath (m.plain_output_path input_path base_input_dir).1 k ∈ fs) := by
  constructor
  · intro hov
    unfold OutputManager.get_output_path
    simp [hov]
  · intro hov hmem
    unfold OutputManager.get_output_path
    simp only [hov]
    obtain ⟨n, hn1, heq, hfree, hall⟩ :=
      get_unique_path_spec fs (m.plain_output_path input_path base_input_dir).1 hmem
    refine ⟨n, hn1, ?_, hfree, hall⟩
    simp [hmem, heq]

/-- Witness for C5, matching the spec scenario: the output directory
already holds `test.jpg`; with `overwrite = true` the resolver returns
`test.jpg` itself, with `overwrite = false` it diverts to a fresh
`test_clean_n.jpg`. -/
theorem get_output_path_collision_witness :
    ((OutputManager.mk ["out"] true false).get_output_path
        {⟨["out"], "test", ".jpg"⟩} ⟨["in"], "test", ".jpg"⟩ []).1 =
      ⟨["out"], "test", ".jpg"⟩ ∧
    (∃ n, 1 ≤ n ∧
      ((OutputManager.mk ["out"] false false).get_output_path
          {⟨["out"], "test", ".jpg"⟩} ⟨["in"], "test", ".jpg"⟩ []).1 =
        mkCleanPath ⟨["out"], "test", ".jpg"⟩ n ∧
      mkCleanPath ⟨["out"], "test", ".jpg"⟩ n ∉
        ({⟨["out"], "test", ".jpg"⟩} : Finset FilePath0) ∧
      ∀ k, 1 ≤ k → k < n →
        mkCleanPath ⟨["out"], "test", ".jpg"⟩ k ∈
          ({⟨["out"], "test", ".jpg"⟩} : Finset FilePath0)) :=
  ⟨(get_output_path_collision (OutputManager.mk ["out"] true false)
      {⟨["out"], "test", ".jpg"⟩} ⟨["in"], "test", ".jpg"⟩ []).1 rfl,
   (get_output_path_collision (OutputManager.mk ["out"] false false)
      {⟨["out"], "test", ".jpg"⟩} ⟨["in"], "test", ".jpg"⟩ []).2 rfl (by decide)⟩

/-! ### Discovery: membership, ordering, depth -/

/-- The order `charListLe` is transitive. -/
theorem charListLe_trans :
    ∀ a b c : List Char, charListLe a b = true → charListLe b c = true →
      charListLe a c = true := by
  intro a
  induction a with
  | nil => intro b c _ _; rfl
  | cons x xs ih =>
    intro b c hab hbc
    cases b with
    | nil => simp [charListLe] at hab
    | cons y ys =>
      cases c with
      | nil => simp [charListLe] at hbc
      | cons z zs =>
        simp only [charListLe] at hab hbc ⊢
        by_cases hxy : x < y
        · have hyz : y < z ∨ y = z := by
            by_cases h1 : y < z
            · exact Or.inl h1
            · by_cases h2 : y = z
              · exact Or.inr h2
              · simp [h1, h2] at hbc
          have hxz : x < z := by
            rcases hyz with h | h
            · exact lt_trans hxy h
            · rw [← h]; exact hxy
          simp [hxz]
        · by_cases hxeq : x = y
          · by_cases hyz : y < z
            · have hxz : x < z := by rw [hxeq]; exact hyz
              simp [hxz]
            · by_cases hyzeq : y = z
              · have hxzeq : x = z := by rw [hxeq, hyzeq]
                have htail : charListLe xs ys = true := by
                  simp [hxy, hxeq] at hab
                  exact hab
                have htail2 : charListLe ys zs = true := by
                  simp [hyz, hyzeq] at hbc
                  exact hbc
                have hxz : ¬ x < z := by rw [hxzeq]; exact lt_irrefl z
                simp [hxz, hxzeq]
                exact ih ys zs htail htail2
              · simp [hyz, hyzeq] at hbc
          · simp [hxy, hxeq] at hab

/-- The order `charListLe` is total. -/
theorem charListLe_total :
    ∀ a b : List Char, charListLe a b = true ∨ charListLe b a = true := by
  intro a
  induction a with
  | nil => intro b; exact Or.inl rfl
  | cons x xs ih =>
    intro b
    cases b with
    | nil => exact Or.inr rfl
    | cons y ys =>
      simp only [charListLe]
      rcases lt_trichotomy x y with h | h | h
      · left; simp [h]
      · rcases ih ys with h2 | h2
        · left; simp [h, h2, lt_irrefl]
        · right; simp [h.symm, h2, lt_irrefl]
      · right; simp [h]

/-- Claim C6: on a directory subtree, discovery returns exactly the
regular files whose extension is in the supported allow-list (restricted
to the first level when not recursive), in lexicographic path order; in
non-recursive mode no returned entry lies below the first directory
level. -/
theorem discover_files_spec (entries : List DirEntry) (recursive : Bool) :
    (∀ e : DirEntry, e ∈ FileDiscovery.discover_files entries recursive ↔
      (e ∈ entries ∧ (recursive = true ∨ e.relPath.length = 1) ∧
        e.is_file = true ∧ FileDiscovery.is_supported_name e.name = true)) ∧
    List.Sorted DirEntry.pathLe (FileDiscovery.discover_files entries recursive) ∧
    (recursive = false → ∀ e ∈ FileDiscovery.discover_files entries recursive,
      e.relPath.length = 1) := by
  have hmem : ∀ e : DirEntry, e ∈ FileDiscovery.discover_files entries recursive ↔
      (e ∈ entries ∧ (recursive = true ∨ e.relPath.length = 1) ∧
        e.is_file = true ∧ FileDiscovery.is_supported_name e.name = true) := by
    intro e
    unfold FileDiscovery.discover_files
    rw [(List.perm_insertionSort DirEntry.pathLe _).mem_iff]
    cases recursive with
    | true => simp [List.mem_filter]
    | false =>
      simp only [if_false, Bool.false_eq_true, List.mem_filter, reduceIte]
      constructor
      · rintro ⟨⟨he, hlen⟩, hf⟩
        simp only [Bool.and_eq_true] at hf
        exact ⟨he, Or.inr (by simpa using hlen), hf.1, hf.2⟩
      · rintro ⟨he, hlen, hf, hsup⟩
        rcases hlen with h | h
        · exact absurd h (by simp)
        · exact ⟨⟨he, by simpa using h⟩, by simp [hf, hsup]⟩
  refine ⟨hmem, ?_, ?_⟩
  · haveI : IsTotal DirEntry DirEntry.pathLe :=
      ⟨fun a b => charListLe_total a.pathStr.data b.pathStr.data⟩
    haveI : IsTrans DirEntry DirEntry.pathLe :=
      ⟨fun a b c => charListLe_trans a.pathStr.data b.pathStr.data c.pathStr.data⟩
    exact List.sorted_insertionSort DirEntry.pathLe _
  · intro hrec e he
    rcases ((hmem e).mp he).2.1 with h | h
    · rw [hrec] at h
      simp at h
    · exact h

/-- Witness for C6: in the sample tree, the nested file is discovered
exactly in recursive mode, the unsupported file never, the upper-case
extension counts as supported, and the non-recursive result stays at the
first level. -/
theorem discover_files_spec_witness :
    (⟨["subdir", "nested.jpg"], true⟩ ∈ FileDiscovery.discover_files sampleEntries true) ∧
    (⟨["subdir", "nested.jpg"], true⟩ ∉ FileDiscovery.discover_files sampleEntries false) ∧
    (⟨["ignored.txt"], true⟩ ∉ FileDiscovery.discover_files sampleEntries true) ∧
    (⟨["image1.JPG"], true⟩ ∈ FileDiscovery.discover_files sampleEntries false) ∧
    List.Sorted DirEntry.pathLe (FileDiscovery.discover_files sampleEntries false) ∧
    (⟨["image1.JPG"], true⟩ : DirEntry).relPath.length = 1 := by
  refine ⟨?_, ?_, ?_, ?_, (discover_files_spec sampleEntries false).2.1, ?_⟩
  · exact ((discover_files_spec sampleEntries true).1 _).mpr (by decide)
  · intro hmem
    have := ((discover_files_spec sampleEntries false).1 _).mp hmem
    revert this
    decide
  · intro hmem
    have := ((discover_files_spec sampleEntries true).1 _).mp hmem
    revert this
    decide
  · exact ((discover_files_spec sampleEntries false).1 _).mpr (by decide)
  · exact (discover_files_spec sampleEntries false).2.2 rfl _
      (((discover_files_spec sampleEntries false).1 _).mpr (by decide))

end MetaScrub
